import Mathlib

/-!
Shallow embedding of the concurrency core of the bun-threads repository:
the LockBroker (the Coordinator class, mutex part), the MutexHandle
(the Mutex class), the WorkerUnit (the Thread class, queued setter and
run-selection state) and the WorkerPool (the ThreadPool class sizing
setters, constructor and dispatch selection).

Conventions of the embedding:
- JavaScript numbers that can be a finite count of milliseconds, Infinity
  or undefined are modelled by the type JsVal.
- JavaScript arrays of request-id strings are modelled by List String;
  the arrays in the source never acquire holes (they are only extended by
  sequential indexed writes, push, pop, splice and shift), so a plain
  list is a faithful model.
- Array.prototype.splice with a possibly negative start index (as produced
  by indexOf returning -1) follows the ECMAScript clamping rule: a negative
  start counts from the end of the array, clamped at 0.
- JavaScript truthiness of a string (used by the release handler on
  queue[0]) is: defined and not the empty string.
- Message posting is modelled by returning the list of messages posted,
  in order; timers by an explicit TimerAction value.
-/

/-- Model of a JavaScript number slot that can hold a finite value,
Infinity, or be undefined (a field read before initialization). -/
inductive JsVal where
  | fin (n : Nat)
  | inf
  | undef
deriving DecidableEq, Repr

/-- JavaScript nullish coalescing a ?? b : takes b only when a is
undefined (null does not occur in the modelled code paths). -/
def jsNullish (a b : JsVal) : JsVal :=
  match a with
  | JsVal.undef => b
  | x => x

/-- JavaScript comparison v > u where u may be undefined: any comparison
with undefined is false (NaN semantics). -/
def jsGtOpt (v : Nat) (u : Option Nat) : Bool :=
  match u with
  | none => false
  | some m => v > m

/-- JavaScript comparison v < u where u may be undefined: any comparison
with undefined is false (NaN semantics). -/
def jsLtOpt (v : Nat) (u : Option Nat) : Bool :=
  match u with
  | none => false
  | some m => v < m

/-- JavaScript Array.prototype.indexOf: index of the first occurrence,
-1 when absent. -/
def jsIndexOf (x : String) : List String → Int
  | [] => -1
  | h :: t =>
    if h = x then 0
    else
      let r := jsIndexOf x t
      if r < 0 then -1 else r + 1

/-- JavaScript arr.splice(start, 1) as a pure function: removes one
element at the clamped start position (ECMAScript: a negative start counts
from the end, clamped at 0; a start beyond the length removes nothing). -/
def jsSpliceRemoveOne (start : Int) (l : List String) : List String :=
  let s : Nat :=
    if start < 0 then l.length - (-start).toNat
    else start.toNat
  l.take s ++ l.drop (s + 1)

/-- JavaScript arr.splice(1, 0, x) as a pure function: inserts x at
index 1, clamped to the length (so at index 0 for an empty array). -/
def jsInsertAtOne (x : String) : List String → List String
  | [] => [x]
  | h :: t => h :: x :: t

/-- JavaScript string truthiness: a string is truthy iff it is nonempty
(the release handler tests if queue[0] is truthy). -/
def jsTruthyStr (s : String) : Bool :=
  s ≠ ""

/-! ### The LockBroker state: the Coordinator class, mutex portion.

The mutexMap : Map from string key to string[] queue is modelled as an
association list with first-match lookup and in-place update. -/

/-- The Coordinator mutexMap: resource key to queue of request ids. -/
def MutexMap : Type := List (String × List String)

instance : DecidableEq MutexMap := by
  unfold MutexMap
  infer_instance

/-- Map.get: the queue for a key, none when the key is absent. -/
def mmGet (m : MutexMap) (k : String) : Option (List String) :=
  match m with
  | [] => none
  | (k', q) :: rest => if k' = k then some q else mmGet rest k

/-- Map.set: replace the queue bound to a key, or append a new binding. -/
def mmSet (m : MutexMap) (k : String) (q : List String) : MutexMap :=
  match m with
  | [] => [(k, q)]
  | (k', q') :: rest =>
    if k' = k then (k, q) :: rest else (k', q') :: mmSet rest k q

/-- Map.has. -/
def mmHas (m : MutexMap) (k : String) : Bool :=
  (mmGet m k).isSome

/-- Inbound mutex messages handled by the Coordinator onmessage switch
(the data_get and data_set cases are orthogonal to the lock broker and
are not claimed about). -/
inductive CoordMsg where
  | mutex_lock (id : String) (key : String) (priority : Bool)
  | mutex_cancel (id : String) (key : String)
  | mutex_release (key : String)
  | mutex_exists (key : String)
  | mutex_waiting (key : String)
deriving DecidableEq, Repr

/-- Outbound replies posted by the Coordinator on its channel. -/
inductive CoordReply where
  | mutex_resolve_lock (id : String)
  | mutex_reject_lock (id : String)
  | mutex_resolve_exists (key : String) (value : Bool)
  | mutex_resolve_waiting (value : Nat)
deriving DecidableEq, Repr

/-- One step of the Coordinator onmessage handler for a mutex message:
the new mutexMap and the replies posted, in order. Translated case by
case from the switch statement of the Coordinator class. -/
def Coordinator.onMessage (m : MutexMap) : CoordMsg → MutexMap × List CoordReply
  | CoordMsg.mutex_lock id key priority =>
    -- if (!this.mutexMap.has(key)) this.mutexMap.set(key, [])
    let m1 := if mmHas m key then m else mmSet m key []
    let q := (mmGet m1 key).getD []
    -- if priority: queue.splice(1, 0, id); else queue.push(id)
    let q1 := if priority then jsInsertAtOne id q else q ++ [id]
    let m2 := mmSet m1 key q1
    -- if the queue was empty before the push, resolve lock immediately
    if q1.length = 1 then (m2, [CoordReply.mutex_resolve_lock id])
    else (m2, [])
  | CoordMsg.mutex_release key =>
    if mmHas m key then
      -- this.mutexMap.get(key)!.shift()
      let q := (mmGet m key).getD []
      let q1 := q.drop 1
      let m1 := mmSet m key q1
      -- if (queue[0]) resolve the first in line
      match q1 with
      | [] => (m1, [])
      | h :: _ =>
        if jsTruthyStr h then (m1, [CoordReply.mutex_resolve_lock h])
        else (m1, [])
    else (m, [])
  | CoordMsg.mutex_cancel id key =>
    if mmHas m key then
      -- queue.splice(queue.indexOf(id), 1), then always reject
      let q := (mmGet m key).getD []
      let q1 := jsSpliceRemoveOne (jsIndexOf id q) q
      (mmSet m key q1, [CoordReply.mutex_reject_lock id])
    else (m, [])
  | CoordMsg.mutex_exists key =>
    (m, [CoordReply.mutex_resolve_exists key (mmHas m key)])
  | CoordMsg.mutex_waiting key =>
    (m, [CoordReply.mutex_resolve_waiting (((mmGet m key).getD []).length)])

/-! ### The MutexHandle: the Mutex class client state. -/

/-- Client-side state of a Mutex handle: the key, the private id field
(undefined when no request is outstanding) and the private _locked flag. -/
structure Mutex where
  key : String
  id : Option String
  locked : Bool
deriving DecidableEq, Repr

/-- Result of the synchronous Mutex.release() method: the updated handle,
the messages posted to the coordinator channel, and the returned boolean.
Translated from the release method body: if locked, post mutex_release,
clear id, clear locked, return true; else return false posting nothing. -/
def Mutex.release (m : Mutex) : Mutex × List CoordMsg × Bool :=
  if m.locked then
    ({ key := m.key, id := none, locked := false },
     [CoordMsg.mutex_release m.key], true)
  else
    (m, [], false)

/-- The synchronous part of Mutex.cancel(): when the id field is
undefined the promise resolves false immediately and no message is
posted; when an id is outstanding a mutex_cancel message is posted (the
boolean result then comes later from the reply). Returns the posted
messages and the immediate resolution (some false) when there is one. -/
def Mutex.cancelStart (m : Mutex) : List CoordMsg × Option Bool :=
  match m.id with
  | none => ([], some false)
  | some i => ([CoordMsg.mutex_cancel i m.key], none)

/-- Outcome delivered to a pending Mutex.lock() promise by one broker
reply: granted on mutex_resolve_lock with the matching id, canceled
(a LockCancelError rejection) on mutex_reject_lock with the matching id,
nothing otherwise. Translated from the onmessage handler installed by
the lock method. -/
inductive LockOutcome where
  | granted
  | canceledLockCancelError
deriving DecidableEq, Repr

/-- How the lock method handler reacts to one reply for request myId. -/
def Mutex.lockOnReply (myId : String) : CoordReply → Option LockOutcome
  | CoordReply.mutex_resolve_lock i =>
    if i = myId then some LockOutcome.granted else none
  | CoordReply.mutex_reject_lock i =>
    if i = myId then some LockOutcome.canceledLockCancelError else none
  | _ => none

/-! ### The WorkerUnit: the Thread class (thread.ts), queued setter. -/

/-- Events emitted by the Thread EventEmitter. -/
inductive ThreadEvent where
  | idle
  | busy
  | closeEvt
deriving DecidableEq, Repr

/-- Effect of the queued setter on the auto-close timer: left alone,
cleared (clearTimeout), or (re)started with a setTimeout that schedules
this.close() with its default argument force = false. -/
inductive TimerAction where
  | noop
  | cleared
  | startClose (force : Bool)
deriving DecidableEq, Repr

/-- State of a Thread that the queued setter touches. -/
structure Thread where
  queued : Nat
  idleTimeout : JsVal
deriving DecidableEq, Repr

/-- The private queued setter of the Thread class, translated from its
body: value < 0 throws a RangeError; value == 0 emits idle and, unless
idleTimeout is Infinity, starts the auto-close timer scheduling
close(force = false); a transition from queued == 0 to value > 0 clears
the timer and emits busy; otherwise no event; finally _queued := value.
The new value is an Int so that the value < 0 guard is meaningful. -/
def Thread.setQueued (t : Thread) (value : Int) :
    Except String (Thread × List ThreadEvent × TimerAction) :=
  if value < 0 then
    Except.error "RangeError: internal state queued must be >= 0"
  else if value = 0 then
    Except.ok ({ t with queued := 0 }, [ThreadEvent.idle],
      if t.idleTimeout ≠ JsVal.inf then TimerAction.startClose false
      else TimerAction.noop)
  else if t.queued = 0 ∧ value > 0 then
    Except.ok ({ t with queued := value.toNat }, [ThreadEvent.busy],
      TimerAction.cleared)
  else
    Except.ok ({ t with queued := value.toNat }, [], TimerAction.noop)

/-- The Thread class fields used by the pool: whether the underlying
worker is closed (worker === undefined) and the busy getter. -/
structure ThreadRec where
  queued : Nat
  idleTimeout : JsVal
  closed : Bool
deriving DecidableEq, Repr

/-- The busy getter of the Thread class: queued > 0. -/
def ThreadRec.busy (t : ThreadRec) : Bool :=
  t.queued > 0

/-! ### The WorkerPool: the ThreadPool class (threadpool.ts).

For the sizing claims only each thread idleTimeout matters, so the
threads array is modelled as the list of the thread idleTimeout values.
The private backing fields _minThreads, _maxThreads are Option Nat
(none models the undefined value they hold before the constructor first
assigns them); _idleTimeout is a JsVal for the same reason. The Thread
constructor called as new Thread(fn, x) stores
jsNullish x.idleTimeout (JsVal.fin 0) because of its
options?.idleTimeout ?? 0 default. -/

structure ThreadPool where
  threads : List JsVal
  minT : Option Nat
  maxT : Option Nat
  idleT : JsVal
deriving DecidableEq, Repr

/-- Writes value v into the first n slots of the threads array,
extending the array when it is shorter (the source loop assigns
this.threads[i] sequentially for i in [0, n), creating a Thread when the
slot is undefined and overwriting the idleTimeout otherwise; either way
slot i ends holding v and no holes appear). -/
def overwriteFirst (n : Nat) (v : JsVal) : List JsVal → List JsVal
  | l =>
    match n, l with
    | 0, l => l
    | n + 1, [] => v :: overwriteFirst n v []
    | n + 1, _ :: xs => v :: overwriteFirst n v xs

/-- The two loops of the minThreads setter body: indices [0, value) end
with idleTimeout Infinity, indices [value, threads.length) end with the
pool idleTimeout (the source guards each write behind an inequality test,
which does not change the resulting value). -/
def minThreadsLoops (value : Nat) (poolIdle : JsVal) (l : List JsVal) :
    List JsVal :=
  let l1 := overwriteFirst value JsVal.inf l
  l1.take value ++ (l1.drop value).map (fun _ => poolIdle)

/-- The resize portion of the maxThreads setter body: while
threads.length > value pop (and best-effort close) threads from the
tail; while threads.length < value push new Thread(fn, pool idleTimeout)
onto the tail. The comparisons are against the backing _maxThreads
field, which is still the old value at this point (and undefined during
construction, making both comparisons false). -/
def maxThreadsResize (value : Nat) (oldMax : Option Nat) (poolIdle : JsVal)
    (l : List JsVal) : List JsVal :=
  if jsLtOpt value oldMax then l.take value
  else if jsGtOpt value oldMax then
    l ++ List.replicate (value - l.length) (jsNullish poolIdle (JsVal.fin 0))
  else l

mutual

/-- The minThreads and maxThreads setters (after argument validation),
as mutually recursive functions: setting minThreads above maxThreads
first runs the full maxThreads setter and vice versa. The fuel argument
bounds that mutual recursion; on every state with minThreads <=
maxThreads (every reachable state) the nested call never recurses
further, so fuel 2 reproduces the source exactly. -/
def ThreadPool.setMinThreadsFuel : Nat → Nat → ThreadPool → ThreadPool
  | 0, _, p => p
  | fuel + 1, value, p =>
    -- else if (value > this.maxThreads) this.maxThreads = value
    let p1 := if jsGtOpt value p.maxT then
        ThreadPool.setMaxThreadsFuel fuel value p
      else p
    { p1 with
      threads := minThreadsLoops value p1.idleT p1.threads,
      minT := some value }

/-- The maxThreads setter (after argument validation): see
ThreadPool.setMinThreadsFuel. -/
def ThreadPool.setMaxThreadsFuel : Nat → Nat → ThreadPool → ThreadPool
  | 0, _, p => p
  | fuel + 1, value, p =>
    -- else if (value < this.minThreads) this.minThreads = value
    let p1 := if jsLtOpt value p.minT then
        ThreadPool.setMinThreadsFuel fuel value p
      else p
    { p1 with
      threads := maxThreadsResize value p1.maxT p1.idleT p1.threads,
      maxT := some value }
end

/-- The minThreads setter with its recursion fuel fixed at 2, which is
exact on every state with minThreads <= maxThreads. -/
def ThreadPool.setMinThreadsNat (value : Nat) (p : ThreadPool) : ThreadPool :=
  ThreadPool.setMinThreadsFuel 2 value p

/-- The maxThreads setter with its recursion fuel fixed at 2, which is
exact on every state with minThreads <= maxThreads. -/
def ThreadPool.setMaxThreadsNat (value : Nat) (p : ThreadPool) : ThreadPool :=
  ThreadPool.setMaxThreadsFuel 2 value p

/-- A raw JavaScript number argument handed to a sizing setter: whether
Number.isInteger holds of it, and its integral value when it does (for a
non-integer or NaN argument the validation throws regardless of the
numeric value, so only the flag matters then). -/
structure JsArg where
  isInteger : Bool
  asInt : Int
deriving DecidableEq, Repr

/-- The public minThreads setter including its validation, returning the
pool state after the call together with the thrown RangeError message if
any: the throw is the very first statement of the setter, before any
state is touched, so the error case returns the state unchanged. -/
def ThreadPool.trySetMinThreads (a : JsArg) (p : ThreadPool) :
    ThreadPool × Option String :=
  if a.asInt < 0 ∨ a.isInteger = false then
    (p, some "RangeError: minThreads must be an integer >= 0")
  else
    (ThreadPool.setMinThreadsNat a.asInt.toNat p, none)

/-- The public maxThreads setter including its validation: value < 1 or
not an integer throws a RangeError as the very first statement of the
setter, before any state is touched, leaving the state unchanged. -/
def ThreadPool.trySetMaxThreads (a : JsArg) (p : ThreadPool) :
    ThreadPool × Option String :=
  if a.asInt < 1 ∨ a.isInteger = false then
    (p, some "RangeError: maxThreads must be an integer >= 1")
  else
    (ThreadPool.setMaxThreadsNat a.asInt.toNat p, none)

/-- The idleTimeout setter: assigns value to threads[i].idleTimeout for
i in [minThreads, threads.length), then stores the backing field. When
_minThreads is still undefined the loop header comparison is false and
the loop body never runs. -/
def ThreadPool.setIdleTimeout (value : JsVal) (p : ThreadPool) : ThreadPool :=
  match p.minT with
  | none => { p with idleT := value }
  | some m =>
    { p with
      threads := p.threads.take m ++ (p.threads.drop m).map (fun _ => value),
      idleT := value }

/-- Writes value v into slots [start, stop) of the threads array,
extending it as needed (used for the two explicit loops at the end of
the ThreadPool constructor; in every use start <= length, so no holes
appear). -/
def overwriteRange (start stop : Nat) (v : JsVal) (l : List JsVal) :
    List JsVal :=
  l.take start ++ overwriteFirst (stop - start) v (l.drop start)

/-- The ThreadPool constructor, replayed statement by statement:
this.threads = []; this.minThreads = minW; this.maxThreads = maxW;
this.idleTimeout = t; then one loop creating threads[0..minThreads)
with idleTimeout Infinity and one creating threads[minThreads..maxThreads)
with the pool idleTimeout. During the two setter assignments the backing
_maxThreads (resp. _minThreads ordering) can still be undefined, which
the Option fields reproduce. The sizes are taken already validated (the
claims quantify over valid sizes only). -/
def ThreadPool.construct (minW maxW : Nat) (t : JsVal) : ThreadPool :=
  let s0 : ThreadPool := { threads := [], minT := none, maxT := none,
                           idleT := JsVal.undef }
  let s1 := ThreadPool.setMinThreadsNat minW s0
  let s2 := ThreadPool.setMaxThreadsNat maxW s1
  let s3 := ThreadPool.setIdleTimeout t s2
  let l1 := overwriteRange 0 (s3.minT.getD 0) JsVal.inf s3.threads
  let l2 := overwriteRange (s3.minT.getD 0) (s3.maxT.getD 0)
    (jsNullish s3.idleT (JsVal.fin 0)) l1
  { s3 with threads := l2 }

/-- The thread-selection decision tree of ThreadPool.run: first
Array.prototype.find over !t.busy && !t.closed, then find over !t.busy;
none models the branch where every thread is busy and run awaits
Promise.race of the idle signals. -/
def ThreadPool.selectThread (ts : List ThreadRec) : Option ThreadRec :=
  match ts.find? (fun t => !t.busy && !t.closed) with
  | some w => some w
  | none => ts.find? (fun t => !t.busy)

/-! ### Helper lemmas. -/

/-- Looking a key up right after setting it yields the set queue. -/
theorem mmGet_mmSet_self (m : MutexMap) (k : String) (q : List String) :
    mmGet (mmSet m k q) k = some q := by
  induction m with
  | nil => simp [mmGet, mmSet]
  | cons hd tl ih =>
    obtain ⟨k', q'⟩ := hd
    by_cases h : k' = k
    · simp [mmGet, mmSet, h]
    · simp [mmGet, mmSet, h, ih]

/-- Setting one key leaves every other key unchanged. -/
theorem mmGet_mmSet_ne (m : MutexMap) (k k' : String) (q : List String)
    (h : k' ≠ k) : mmGet (mmSet m k q) k' = mmGet m k' := by
  have hne : ¬ k = k' := fun hh => h hh.symm
  induction m with
  | nil => simp [mmGet, mmSet, hne]
  | cons hd tl ih =>
    obtain ⟨k0, q0⟩ := hd
    by_cases h0 : k0 = k
    · subst h0
      simp [mmGet, mmSet, hne]
    · simp [mmGet, mmSet, h0, ih]

/-- Closed form of overwriteFirst. -/
theorem overwriteFirst_eq (n : Nat) (v : JsVal) (l : List JsVal) :
    overwriteFirst n v l = List.replicate n v ++ l.drop n := by
  induction n generalizing l with
  | zero => simp [overwriteFirst]
  | succ n ih =>
    cases l with
    | nil => simp [overwriteFirst, ih, List.replicate_succ]
    | cons x xs => simp [overwriteFirst, ih, List.replicate_succ]

/-- indexOf of an absent element is -1. -/
theorem jsIndexOf_of_not_mem (x : String) (q : List String) (h : x ∉ q) :
    jsIndexOf x q = -1 := by
  induction q with
  | nil => rfl
  | cons hd tl ih =>
    simp only [List.mem_cons, not_or] at h
    have h1 : ¬ hd = x := fun hh => h.1 hh.symm
    simp [jsIndexOf, h1, ih h.2]

/-- indexOf of a present element is nonnegative. -/
theorem jsIndexOf_nonneg_of_mem (x : String) (q : List String) (h : x ∈ q) :
    0 ≤ jsIndexOf x q := by
  induction q with
  | nil => simp at h
  | cons hd tl ih =>
    by_cases h0 : hd = x
    · simp [jsIndexOf, h0]
    · have hx : x ∈ tl := by
        rcases List.mem_cons.mp h with h1 | h1
        · exact absurd h1.symm h0
        · exact h1
      have := ih hx
      simp only [jsIndexOf, h0, if_false]
      by_cases hr : jsIndexOf x tl < 0
      · omega
      · simp [hr]
        omega

/-- splice(indexOf(x), 1) on a queue not containing x removes the last
element of the queue: indexOf yields -1 and a negative splice start
counts from the end of the array. -/
theorem jsSplice_jsIndexOf_of_not_mem (x : String) (q : List String)
    (h : x ∉ q) : jsSpliceRemoveOne (jsIndexOf x q) q = q.dropLast := by
  rw [jsIndexOf_of_not_mem x q h]
  show q.take (q.length - 1) ++ q.drop (q.length - 1 + 1) = q.dropLast
  rw [List.dropLast_eq_take]
  have : q.length - 1 + 1 ≥ q.length := by omega
  simp [List.drop_eq_nil_of_le this]

/-- splice(indexOf(x), 1) on a queue containing x removes exactly the
first occurrence of x. -/
theorem jsSplice_jsIndexOf_of_mem (x : String) (q : List String)
    (h : x ∈ q) : jsSpliceRemoveOne (jsIndexOf x q) q = q.erase x := by
  induction q with
  | nil => simp at h
  | cons hd tl ih =>
    by_cases h0 : hd = x
    · simp [jsIndexOf, h0, jsSpliceRemoveOne, List.erase_cons_head]
    · have hx : x ∈ tl := by
        rcases List.mem_cons.mp h with h1 | h1
        · exact absurd h1.symm h0
        · exact h1
      have hnn := jsIndexOf_nonneg_of_mem x tl hx
      have hr : ¬ jsIndexOf x tl < 0 := by omega
      have hstep : jsSpliceRemoveOne (jsIndexOf x tl + 1) (hd :: tl)
          = hd :: jsSpliceRemoveOne (jsIndexOf x tl) tl := by
        unfold jsSpliceRemoveOne
        have h1 : ¬ (jsIndexOf x tl + 1 < 0) := by omega
        have h2 : (jsIndexOf x tl + 1).toNat = (jsIndexOf x tl).toNat + 1 := by
          omega
        simp only [if_neg h1, if_neg hr, h2]
        simp [List.take_succ_cons, List.drop_succ_cons]
      simp only [jsIndexOf, h0, if_false, if_neg hr]
      rw [hstep, ih hx]
      have : (hd == x) = false := by
        simp [h0]
      simp [List.erase_cons, this]

/-! ### Claim theorems. -/

/-- C1: for a key whose queue is empty or absent, the broker grants the
first lock request immediately (reply mutex_resolve_lock with that
request id) and records the id in the key queue, leaving other keys
unchanged; a second lock request for the same key while the first is
held is merely enqueued with no grant, and a later release for that key
removes the queue head and replies granted to the new head. -/
theorem C1_first_grant_fifo_release (m : MutexMap) (key a b : String)
    (prio : Bool) (hb : b ≠ "") :
    ((mmGet m key = none ∨ mmGet m key = some []) →
      (Coordinator.onMessage m (CoordMsg.mutex_lock a key prio)).2
        = [CoordReply.mutex_resolve_lock a]
      ∧ mmGet (Coordinator.onMessage m (CoordMsg.mutex_lock a key prio)).1 key
        = some [a]
      ∧ ∀ k', k' ≠ key →
          mmGet (Coordinator.onMessage m (CoordMsg.mutex_lock a key prio)).1 k'
            = mmGet m k')
    ∧ (mmGet m key = some [a] →
        Coordinator.onMessage m (CoordMsg.mutex_lock b key false)
          = (mmSet m key [a, b], []))
    ∧ (mmGet m key = some [a, b] →
        Coordinator.onMessage m (CoordMsg.mutex_release key)
          = (mmSet m key [b], [CoordReply.mutex_resolve_lock b])) := by
  refine ⟨?_, ?_, ?_⟩
  · intro h
    rcases h with h | h
    · have hhas : mmHas m key = false := by simp [mmHas, h]
      refine ⟨?_, ?_, ?_⟩ <;>
        cases prio <;>
          simp [Coordinator.onMessage, hhas, jsInsertAtOne, mmGet_mmSet_self]
      · intro k' hk'
        rw [mmGet_mmSet_ne _ _ _ _ hk', mmGet_mmSet_ne _ _ _ _ hk']
      · intro k' hk'
        rw [mmGet_mmSet_ne _ _ _ _ hk', mmGet_mmSet_ne _ _ _ _ hk']
    · have hhas : mmHas m key = true := by simp [mmHas, h]
      refine ⟨?_, ?_, ?_⟩ <;>
        cases prio <;>
          simp [Coordinator.onMessage, hhas, h, jsInsertAtOne, mmGet_mmSet_self]
      · intro k' hk'
        rw [mmGet_mmSet_ne _ _ _ _ hk']
      · intro k' hk'
        rw [mmGet_mmSet_ne _ _ _ _ hk']
  · intro h
    have hhas : mmHas m key = true := by simp [mmHas, h]
    simp [Coordinator.onMessage, hhas, h]
  · intro h
    have hhas : mmHas m key = true := by simp [mmHas, h]
    simp [Coordinator.onMessage, hhas, h, jsTruthyStr, hb]

/-- C1 witness: the theorem applied on the empty map, key k, ids a and b. -/
theorem C1_witness :
    ((Coordinator.onMessage [] (CoordMsg.mutex_lock "a" "k" false)).2
      = [CoordReply.mutex_resolve_lock "a"])
    ∧ (Coordinator.onMessage [("k", ["a"])] (CoordMsg.mutex_lock "b" "k" false)
        = (mmSet [("k", ["a"])] "k" ["a", "b"], []))
    ∧ (Coordinator.onMessage [("k", ["a", "b"])] (CoordMsg.mutex_release "k")
        = (mmSet [("k", ["a", "b"])] "k" ["b"],
           [CoordReply.mutex_resolve_lock "b"])) := by
  have h := C1_first_grant_fifo_release [] "k" "a" "b" false (by decide)
  refine ⟨(h.1 (Or.inl rfl)).1, ?_, ?_⟩
  · have h2 := C1_first_grant_fifo_release [("k", ["a"])] "k" "a" "b" false
      (by decide)
    exact h2.2.1 (by decide)
  · have h3 := C1_first_grant_fifo_release [("k", ["a", "b"])] "k" "a" "b" false
      (by decide)
    exact h3.2.2 (by decide)

/-- C3: a priority lock request arriving at a non-empty queue is
inserted at position 1 (immediately behind the current holder, ahead of
every other waiter) with no grant emitted; a non-priority request is
appended to the back with no grant; and a release always grants the new
queue head, so the priority request is granted right after the current
holder releases and before the previously pending waiters. -/
theorem C3_priority_insertion (m : MutexMap) (key id h b : String)
    (t rest : List String) (hq : List String) (hb : b ≠ "") :
    (mmGet m key = some (h :: t) →
      Coordinator.onMessage m (CoordMsg.mutex_lock id key true)
        = (mmSet m key (h :: id :: t), []))
    ∧ (mmGet m key = some hq → hq ≠ [] →
        Coordinator.onMessage m (CoordMsg.mutex_lock id key false)
          = (mmSet m key (hq ++ [id]), []))
    ∧ (mmGet m key = some (h :: b :: rest) →
        Coordinator.onMessage m (CoordMsg.mutex_release key)
          = (mmSet m key (b :: rest), [CoordReply.mutex_resolve_lock b])) := by
  refine ⟨?_, ?_, ?_⟩
  · intro hget
    have hhas : mmHas m key = true := by simp [mmHas, hget]
    simp [Coordinator.onMessage, hhas, hget, jsInsertAtOne]
  · intro hget hne
    have hhas : mmHas m key = true := by simp [mmHas, hget]
    have hlen : ¬ (hq ++ [id]).length = 1 := by
      cases hq with
      | nil => exact absurd rfl hne
      | cons x xs => simp
    simp [Coordinator.onMessage, hhas, hget, hlen, hne]
  · intro hget
    have hhas : mmHas m key = true := by simp [mmHas, hget]
    simp [Coordinator.onMessage, hhas, hget, jsTruthyStr, hb]

/-- C3 witness: priority insertion behind the holder of a two-waiter
queue, non-priority append, and the release that grants the priority id. -/
theorem C3_witness :
    (Coordinator.onMessage [("k", ["a", "b", "c"])]
        (CoordMsg.mutex_lock "p" "k" true)
      = (mmSet [("k", ["a", "b", "c"])] "k" ["a", "p", "b", "c"], []))
    ∧ (Coordinator.onMessage [("k", ["a", "b", "c"])]
        (CoordMsg.mutex_lock "p" "k" false)
      = (mmSet [("k", ["a", "b", "c"])] "k" ["a", "b", "c", "p"], []))
    ∧ (Coordinator.onMessage [("k", ["a", "p", "b", "c"])]
        (CoordMsg.mutex_release "k")
      = (mmSet [("k", ["a", "p", "b", "c"])] "k" ["p", "b", "c"],
         [CoordReply.mutex_resolve_lock "p"])) := by
  refine ⟨?_, ?_, ?_⟩
  · exact (C3_priority_insertion [("k", ["a", "b", "c"])] "k" "p" "a" "b"
      ["b", "c"] [] [] (by decide)).1 (by decide)
  · exact (C3_priority_insertion [("k", ["a", "b", "c"])] "k" "p" "a" "b"
      [] [] ["a", "b", "c"] (by decide)).2.1 (by decide) (by decide)
  · exact (C3_priority_insertion [("k", ["a", "p", "b", "c"])] "k" "p" "a" "p"
      [] ["b", "c"] [] (by decide)).2.2 (by decide)

/-- C4: processing a cancel message emits no grant at all: every reply
is the single rejection to the canceling id; and canceling the current
holder (the queue head) removes position 0 without granting the new
head, which therefore stays ungranted until a release arrives. -/
theorem C4_cancel_never_grants (m : MutexMap) (id key : String)
    (t : List String) :
    (∀ i, CoordReply.mutex_resolve_lock i
        ∉ (Coordinator.onMessage m (CoordMsg.mutex_cancel id key)).2)
    ∧ (∀ r ∈ (Coordinator.onMessage m (CoordMsg.mutex_cancel id key)).2,
        r = CoordReply.mutex_reject_lock id)
    ∧ (mmGet m key = some (id :: t) →
        Coordinator.onMessage m (CoordMsg.mutex_cancel id key)
          = (mmSet m key t, [CoordReply.mutex_reject_lock id])) := by
  refine ⟨?_, ?_, ?_⟩
  · intro i
    by_cases hhas : mmHas m key
    · simp [Coordinator.onMessage, hhas]
    · simp [Coordinator.onMessage, hhas]
  · intro r hr
    by_cases hhas : mmHas m key
    · simp [Coordinator.onMessage, hhas] at hr
      exact hr
    · simp [Coordinator.onMessage, hhas] at hr
  · intro hget
    have hhas : mmHas m key = true := by simp [mmHas, hget]
    have hsplice : jsSpliceRemoveOne (jsIndexOf id (id :: t)) (id :: t) = t := by
      have := jsSplice_jsIndexOf_of_mem id (id :: t) (List.mem_cons_self id t)
      rwa [List.erase_cons_head] at this
    simp [Coordinator.onMessage, hhas, hget, hsplice]

/-- C4 witness: canceling the head of a two-element queue removes it,
rejects only the canceled id, and grants nobody. -/
theorem C4_witness :
    (∀ i, CoordReply.mutex_resolve_lock i
        ∉ (Coordinator.onMessage [("k", ["a", "b"])]
            (CoordMsg.mutex_cancel "a" "k")).2)
    ∧ (Coordinator.onMessage [("k", ["a", "b"])] (CoordMsg.mutex_cancel "a" "k")
        = (mmSet [("k", ["a", "b"])] "k" ["b"],
           [CoordReply.mutex_reject_lock "a"])) := by
  have h := C4_cancel_never_grants [("k", ["a", "b"])] "a" "k" ["b"]
  exact ⟨h.1, h.2.2 (by decide)⟩

/-- C2 counterexample: the request id z is in no queue, yet processing
its cancel does not leave the queues unchanged: splice(indexOf(z), 1)
becomes splice(-1, 1), which removes the last element b of the queue,
and the broker still posts a rejection to z. -/
theorem C2_counterexample :
    ("z" ∉ ["a", "b"])
    ∧ (Coordinator.onMessage [("k", ["a", "b"])]
        (CoordMsg.mutex_cancel "z" "k")).1 ≠ [("k", ["a", "b"])]
    ∧ (mmGet (Coordinator.onMessage [("k", ["a", "b"])]
        (CoordMsg.mutex_cancel "z" "k")).1 "k" = some ["a"]) := by
  decide

/-- C2 amended: a cancel for a key that has never been locked is a
no-op with no reply; the client cancel call reports false exactly when
the handle has no outstanding request id (then nothing is posted); a
cancel whose id is absent from an existing queue removes that queue
last element (if any) and still replies rejected to the canceling id;
and a cancel of a pending non-head request rejects that request (the
lock future rejects with LockCancelError), removes exactly that id, and
decreases the queue length by exactly one. -/
theorem C2_cancel_amended (m : MutexMap) (id key h : String)
    (q t : List String) (client : Mutex) :
    (mmGet m key = none →
      Coordinator.onMessage m (CoordMsg.mutex_cancel id key) = (m, []))
    ∧ (client.id = none → Mutex.cancelStart client = ([], some false))
    ∧ (mmGet m key = some q → id ∉ q →
        Coordinator.onMessage m (CoordMsg.mutex_cancel id key)
          = (mmSet m key q.dropLast, [CoordReply.mutex_reject_lock id]))
    ∧ (mmGet m key = some (h :: t) → id ∈ t → id ≠ h →
        Coordinator.onMessage m (CoordMsg.mutex_cancel id key)
          = (mmSet m key (h :: t.erase id), [CoordReply.mutex_reject_lock id])
        ∧ (h :: t.erase id).length + 1 = (h :: t).length
        ∧ Mutex.lockOnReply id (CoordReply.mutex_reject_lock id)
            = some LockOutcome.canceledLockCancelError) := by
  refine ⟨?_, ?_, ?_, ?_⟩
  · intro hget
    have hhas : mmHas m key = false := by simp [mmHas, hget]
    simp [Coordinator.onMessage, hhas]
  · intro hid
    simp [Mutex.cancelStart, hid]
  · intro hget hmem
    have hhas : mmHas m key = true := by simp [mmHas, hget]
    simp [Coordinator.onMessage, hhas, hget,
          jsSplice_jsIndexOf_of_not_mem id q hmem]
  · intro hget hmem hne
    have hhas : mmHas m key = true := by simp [mmHas, hget]
    have hmem' : id ∈ h :: t := List.mem_cons_of_mem h hmem
    have hsplice := jsSplice_jsIndexOf_of_mem id (h :: t) hmem'
    have hne2 : ¬ h = id := fun hh => hne hh.symm
    have hh : (h == id) = false := by
      simp [hne2]
    rw [List.erase_cons, hh] at hsplice
    refine ⟨?_, ?_, ?_⟩
    · simp [Coordinator.onMessage, hhas, hget, hsplice]
    · have := List.length_erase_of_mem hmem
      have ht : 1 ≤ t.length := List.length_pos.mpr
        (List.ne_nil_of_mem hmem)
      simp [this]
      omega
    · simp [Mutex.lockOnReply]

/-- C2 witness: the amended theorem applied to an unknown key, an idle
client handle, the absent-id cancel on queue a b, and the cancel of the
pending non-head request b in queue a b c. -/
theorem C2_witness :
    (Coordinator.onMessage [] (CoordMsg.mutex_cancel "z" "x") = ([], []))
    ∧ (Mutex.cancelStart { key := "x", id := none, locked := false }
        = ([], some false))
    ∧ (Coordinator.onMessage [("k", ["a", "b"])] (CoordMsg.mutex_cancel "z" "k")
        = (mmSet [("k", ["a", "b"])] "k" ["a"],
           [CoordReply.mutex_reject_lock "z"]))
    ∧ (Coordinator.onMessage [("k", ["a", "b", "c"])]
        (CoordMsg.mutex_cancel "b" "k")
        = (mmSet [("k", ["a", "b", "c"])] "k" ["a", "c"],
           [CoordReply.mutex_reject_lock "b"])) := by
  refine ⟨?_, ?_, ?_, ?_⟩
  · exact (C2_cancel_amended [] "z" "x" "" [] []
      { key := "x", id := none, locked := false }).1 (by decide)
  · exact (C2_cancel_amended [] "z" "x" "" [] []
      { key := "x", id := none, locked := false }).2.1 (by decide)
  · have h := (C2_cancel_amended [("k", ["a", "b"])] "z" "k" "" ["a", "b"] []
      { key := "x", id := none, locked := false }).2.2.1 (by decide) (by decide)
    simpa using h
  · have h := ((C2_cancel_amended [("k", ["a", "b", "c"])] "b" "k" "a" []
      ["b", "c"] { key := "x", id := none, locked := false }).2.2.2
      (by decide) (by decide) (by decide)).1
    simpa using h

/-- C5: the run selection never picks a busy thread: whatever it
returns has queued = 0; when a non-busy open thread exists the selected
thread is non-busy and open; and the selection is empty (run falls
through to awaiting the idle race) exactly when every thread is busy. -/
theorem C5_dispatch_selection (ts : List ThreadRec) :
    (∀ w, ThreadPool.selectThread ts = some w → w.queued = 0)
    ∧ ((∃ t ∈ ts, t.queued = 0 ∧ t.closed = false) →
        ∃ w, ThreadPool.selectThread ts = some w
          ∧ w.queued = 0 ∧ w.closed = false)
    ∧ (ThreadPool.selectThread ts = none ↔ ∀ t ∈ ts, 0 < t.queued) := by
  refine ⟨?_, ?_, ?_⟩
  · intro w hw
    unfold ThreadPool.selectThread at hw
    cases hfind : ts.find? (fun t => !t.busy && !t.closed) with
    | some u =>
      rw [hfind] at hw
      cases hw
      have := List.find?_some hfind
      simp [ThreadRec.busy] at this
      omega
    | none =>
      rw [hfind] at hw
      have := List.find?_some hw
      simp [ThreadRec.busy] at this
      omega
  · intro hex
    obtain ⟨t0, ht0, hq0, hc0⟩ := hex
    have hiss : (ts.find? (fun t => !t.busy && !t.closed)).isSome := by
      rw [List.find?_isSome]
      exact ⟨t0, ht0, by simp [ThreadRec.busy, hq0, hc0]⟩
    obtain ⟨w, hw⟩ := Option.isSome_iff_exists.mp hiss
    have hprop := List.find?_some hw
    simp [ThreadRec.busy] at hprop
    refine ⟨w, ?_, by omega, hprop.2⟩
    unfold ThreadPool.selectThread
    rw [hw]
  · constructor
    · intro hnone t ht
      unfold ThreadPool.selectThread at hnone
      cases hfind : ts.find? (fun t => !t.busy && !t.closed) with
      | some u => rw [hfind] at hnone; cases hnone
      | none =>
        rw [hfind] at hnone
        have := List.find?_eq_none.mp hnone t ht
        simp [ThreadRec.busy] at this
        omega
    · intro hall
      unfold ThreadPool.selectThread
      have h1 : ts.find? (fun t => !t.busy && !t.closed) = none := by
        rw [List.find?_eq_none]
        intro t ht
        have := hall t ht
        simp [ThreadRec.busy]
        intro h
        omega
      have h2 : ts.find? (fun t => !t.busy) = none := by
        rw [List.find?_eq_none]
        intro t ht
        have := hall t ht
        simp [ThreadRec.busy]
        omega
      rw [h1, h2]

/-- C5 witness: on a pool where thread one is busy, thread two is idle
but closed and thread three is idle and open, the selection returns the
idle open thread three. -/
theorem C5_witness :
    (∃ w, ThreadPool.selectThread
        [{ queued := 3, idleTimeout := JsVal.inf, closed := false },
         { queued := 0, idleTimeout := JsVal.inf, closed := true },
         { queued := 0, idleTimeout := JsVal.inf, closed := false }]
      = some w ∧ w.queued = 0 ∧ w.closed = false)
    ∧ (ThreadPool.selectThread
        [{ queued := 2, idleTimeout := JsVal.inf, closed := false }] = none) := by
  constructor
  · exact (C5_dispatch_selection _).2.1
      ⟨{ queued := 0, idleTimeout := JsVal.inf, closed := false },
       by simp, by simp, by simp⟩
  · exact (C5_dispatch_selection _).2.2.mpr (by
      intro t ht
      simp at ht
      simp [ht])

/-- C9: release on a locked handle posts exactly one mutex_release
message, clears the stored request id, sets locked to false and returns
true; release on an unlocked handle posts nothing, changes nothing and
returns false; hence a second release in a row always returns false. -/
theorem C9_release (m : Mutex) :
    (m.locked = true →
      Mutex.release m
        = ({ key := m.key, id := none, locked := false },
           [CoordMsg.mutex_release m.key], true))
    ∧ (m.locked = false → Mutex.release m = (m, [], false))
    ∧ (Mutex.release (Mutex.release m).1).2.2 = false := by
  refine ⟨?_, ?_, ?_⟩
  · intro h
    simp [Mutex.release, h]
  · intro h
    simp [Mutex.release, h]
  · by_cases h : m.locked
    · simp [Mutex.release, h]
    · simp [Mutex.release, h]

/-- C9 witness: a locked handle releases with one message and true; the
resulting handle releases again with false. -/
theorem C9_witness :
    (Mutex.release { key := "k", id := some "a", locked := true }
      = ({ key := "k", id := none, locked := false },
         [CoordMsg.mutex_release "k"], true))
    ∧ (Mutex.release { key := "k", id := none, locked := false }
      = ({ key := "k", id := none, locked := false }, [], false))
    ∧ (Mutex.release
        (Mutex.release { key := "k", id := some "a", locked := true }).1).2.2
      = false := by
  refine ⟨?_, ?_, ?_⟩
  · exact (C9_release { key := "k", id := some "a", locked := true }).1 rfl
  · exact (C9_release { key := "k", id := none, locked := false }).2.1 rfl
  · exact (C9_release { key := "k", id := some "a", locked := true }).2.2

/-- C10: setting queued from 0 to a positive value clears the pending
auto-close timer and emits busy; setting queued to 0 emits idle and
starts the timer that schedules close with force = false, unless the
idleTimeout is Infinity, in which case no timer is started. -/
theorem C10_queued_transitions (t : Thread) (v : Int) :
    (t.queued = 0 → 0 < v →
      Thread.setQueued t v
        = Except.ok ({ t with queued := v.toNat }, [ThreadEvent.busy],
            TimerAction.cleared))
    ∧ (t.idleTimeout ≠ JsVal.inf →
        Thread.setQueued t 0
          = Except.ok ({ t with queued := 0 }, [ThreadEvent.idle],
              TimerAction.startClose false))
    ∧ (t.idleTimeout = JsVal.inf →
        Thread.setQueued t 0
          = Except.ok ({ t with queued := 0 }, [ThreadEvent.idle],
              TimerAction.noop)) := by
  refine ⟨?_, ?_, ?_⟩
  · intro hq hv
    have h1 : ¬ v < 0 := by omega
    have h2 : ¬ v = 0 := by omega
    simp [Thread.setQueued, h1, h2, hq, hv]
  · intro ht
    simp [Thread.setQueued, ht]
  · intro ht
    simp [Thread.setQueued, ht]

/-- C10 witness: a busy transition on an idle thread with a finite
timeout, and idle transitions with finite and infinite timeouts. -/
theorem C10_witness :
    (Thread.setQueued { queued := 0, idleTimeout := JsVal.fin 60000 } 1
      = Except.ok ({ queued := 1, idleTimeout := JsVal.fin 60000 },
          [ThreadEvent.busy], TimerAction.cleared))
    ∧ (Thread.setQueued { queued := 1, idleTimeout := JsVal.fin 60000 } 0
      = Except.ok ({ queued := 0, idleTimeout := JsVal.fin 60000 },
          [ThreadEvent.idle], TimerAction.startClose false))
    ∧ (Thread.setQueued { queued := 1, idleTimeout := JsVal.inf } 0
      = Except.ok ({ queued := 0, idleTimeout := JsVal.inf },
          [ThreadEvent.idle], TimerAction.noop)) := by
  refine ⟨?_, ?_, ?_⟩
  · exact (C10_queued_transitions
      { queued := 0, idleTimeout := JsVal.fin 60000 } 1).1 rfl (by decide)
  · exact (C10_queued_transitions
      { queued := 1, idleTimeout := JsVal.fin 60000 } 0).2.1 (by decide)
  · exact (C10_queued_transitions
      { queued := 1, idleTimeout := JsVal.inf } 0).2.2 rfl

/-- Closed form of the two minThreads setter loops: the first value
slots become Infinity and the remaining slots become the pool
idleTimeout. -/
theorem minThreadsLoops_eq (v : Nat) (t : JsVal) (l : List JsVal) :
    minThreadsLoops v t l
      = List.replicate v JsVal.inf ++ (l.drop v).map (fun _ => t) := by
  simp only [minThreadsLoops, overwriteFirst_eq]
  have h1 : (List.replicate v JsVal.inf ++ l.drop v).take v
      = List.replicate v JsVal.inf := by
    simp
  have h2 : (List.replicate v JsVal.inf ++ l.drop v).drop v = l.drop v := by
    simp
  rw [h1, h2]

/-- Length of the minThreads setter loops result. -/
theorem minThreadsLoops_length (v : Nat) (t : JsVal) (l : List JsVal) :
    (minThreadsLoops v t l).length = max v l.length := by
  rw [minThreadsLoops_eq]
  simp
  omega

/-- C6: with valid sizes minW less or equal maxW and a finite pool
idleTimeout, construction yields exactly maxW threads: the first minW
with idleTimeout Infinity and the remaining maxW - minW with the pool
idleTimeout, so exactly minW threads have infinite idle timeout. -/
theorem C6_construct_shape (minW maxW k : Nat) (h1 : minW ≤ maxW)
    (h2 : 1 ≤ maxW) :
    (ThreadPool.construct minW maxW (JsVal.fin k)).threads
      = List.replicate minW JsVal.inf
        ++ List.replicate (maxW - minW) (JsVal.fin k)
    ∧ (ThreadPool.construct minW maxW (JsVal.fin k)).threads.length = maxW
    ∧ (ThreadPool.construct minW maxW (JsVal.fin k)).minT = some minW
    ∧ (ThreadPool.construct minW maxW (JsVal.fin k)).maxT = some maxW
    ∧ (ThreadPool.construct minW maxW (JsVal.fin k)).threads.count JsVal.inf
      = minW := by
  have hs1 : ThreadPool.setMinThreadsNat minW
      { threads := [], minT := none, maxT := none, idleT := JsVal.undef }
      = { threads := List.replicate minW JsVal.inf, minT := some minW,
          maxT := none, idleT := JsVal.undef } := by
    simp [ThreadPool.setMinThreadsNat, ThreadPool.setMinThreadsFuel,
          jsGtOpt, minThreadsLoops_eq]
  have hnlt : ¬ maxW < minW := by omega
  have hs2 : ThreadPool.setMaxThreadsNat maxW
      { threads := List.replicate minW JsVal.inf, minT := some minW,
        maxT := none, idleT := JsVal.undef }
      = { threads := List.replicate minW JsVal.inf, minT := some minW,
          maxT := some maxW, idleT := JsVal.undef } := by
    simp [ThreadPool.setMaxThreadsNat, ThreadPool.setMaxThreadsFuel,
          jsLtOpt, jsGtOpt, maxThreadsResize, hnlt]
  have hs3 : ThreadPool.setIdleTimeout (JsVal.fin k)
      { threads := List.replicate minW JsVal.inf, minT := some minW,
        maxT := some maxW, idleT := JsVal.undef }
      = { threads := List.replicate minW JsVal.inf, minT := some minW,
          maxT := some maxW, idleT := JsVal.fin k } := by
    simp [ThreadPool.setIdleTimeout]
  have hmain : ThreadPool.construct minW maxW (JsVal.fin k)
      = { threads := List.replicate minW JsVal.inf
            ++ List.replicate (maxW - minW) (JsVal.fin k),
          minT := some minW, maxT := some maxW, idleT := JsVal.fin k } := by
    simp only [ThreadPool.construct]
    rw [hs1, hs2, hs3]
    simp [overwriteRange, overwriteFirst_eq, jsNullish]
  refine ⟨by rw [hmain], ?_, by rw [hmain], by rw [hmain], ?_⟩
  · rw [hmain]
    simp
    omega
  · rw [hmain]
    simp [List.count_append, List.count_replicate]

/-- C6 witness: a pool built with minWarm 2, maxConcurrent 5 and a
60 second idle timeout. -/
theorem C6_witness :
    (ThreadPool.construct 2 5 (JsVal.fin 60000)).threads
      = List.replicate 2 JsVal.inf ++ List.replicate 3 (JsVal.fin 60000)
    ∧ (ThreadPool.construct 2 5 (JsVal.fin 60000)).threads.length = 5
    ∧ (ThreadPool.construct 2 5 (JsVal.fin 60000)).threads.count JsVal.inf
      = 2 := by
  have h := C6_construct_shape 2 5 60000 (by decide) (by decide)
  exact ⟨h.1, h.2.1, h.2.2.2.2⟩

/-- C8: a minThreads assignment with a negative or non-integer argument,
and a maxThreads assignment with an argument below 1 or non-integer,
throw a RangeError as the first statement of the setter, reporting the
error and leaving the pool state completely unchanged. -/
theorem C8_invalid_argument (p : ThreadPool) (a : JsArg) :
    ((a.asInt < 0 ∨ a.isInteger = false) →
      ThreadPool.trySetMinThreads a p
        = (p, some "RangeError: minThreads must be an integer >= 0"))
    ∧ ((a.asInt < 1 ∨ a.isInteger = false) →
      ThreadPool.trySetMaxThreads a p
        = (p, some "RangeError: maxThreads must be an integer >= 1")) := by
  constructor
  · intro h
    simp [ThreadPool.trySetMinThreads, h]
  · intro h
    simp [ThreadPool.trySetMaxThreads, h]

/-- C8 witness: a negative minThreads argument and a zero maxThreads
argument on a freshly built pool both throw and leave it unchanged. -/
theorem C8_witness :
    (ThreadPool.trySetMinThreads { isInteger := true, asInt := -1 }
        (ThreadPool.construct 1 2 (JsVal.fin 0))
      = (ThreadPool.construct 1 2 (JsVal.fin 0),
         some "RangeError: minThreads must be an integer >= 0"))
    ∧ (ThreadPool.trySetMaxThreads { isInteger := true, asInt := 0 }
        (ThreadPool.construct 1 2 (JsVal.fin 0))
      = (ThreadPool.construct 1 2 (JsVal.fin 0),
         some "RangeError: maxThreads must be an integer >= 1")) := by
  constructor
  · exact (C8_invalid_argument (ThreadPool.construct 1 2 (JsVal.fin 0))
      { isInteger := true, asInt := -1 }).1 (Or.inl (by decide))
  · exact (C8_invalid_argument (ThreadPool.construct 1 2 (JsVal.fin 0))
      { isInteger := true, asInt := 0 }).2 (Or.inl (by decide))

/-- Unfolding equation for the minThreads setter at its fixed fuel. -/
theorem setMinThreadsNat_unfold (n : Nat) (p : ThreadPool) :
    ThreadPool.setMinThreadsNat n p
      = (let p1 := (if jsGtOpt n p.maxT then ThreadPool.setMaxThreadsFuel 1 n p
            else p);
         { p1 with
           threads := minThreadsLoops n p1.idleT p1.threads,
           minT := some n }) := rfl

/-- Unfolding equation for one fuel step of the maxThreads setter. -/
theorem setMaxThreadsFuel_one (n : Nat) (p : ThreadPool) :
    ThreadPool.setMaxThreadsFuel 1 n p
      = (let p1 := (if jsLtOpt n p.minT then ThreadPool.setMinThreadsFuel 0 n p
            else p);
         { p1 with
           threads := maxThreadsResize n p1.maxT p1.idleT p1.threads,
           maxT := some n }) := rfl

/-- Unfolding equation for one fuel step of the minThreads setter. -/
theorem setMinThreadsFuel_one (n : Nat) (p : ThreadPool) :
    ThreadPool.setMinThreadsFuel 1 n p
      = (let p1 := (if jsGtOpt n p.maxT then ThreadPool.setMaxThreadsFuel 0 n p
            else p);
         { p1 with
           threads := minThreadsLoops n p1.idleT p1.threads,
           minT := some n }) := rfl

/-- Unfolding equation for the maxThreads setter at its fixed fuel. -/
theorem setMaxThreadsNat_unfold (n : Nat) (p : ThreadPool) :
    ThreadPool.setMaxThreadsNat n p
      = (let p1 := (if jsLtOpt n p.minT then ThreadPool.setMinThreadsFuel 1 n p
            else p);
         { p1 with
           threads := maxThreadsResize n p1.maxT p1.idleT p1.threads,
           maxT := some n }) := rfl

/-- Exhausted fuel leaves the state unchanged (never reached on states
with minThreads at most maxThreads). -/
theorem setMinThreadsFuel_zero (n : Nat) (p : ThreadPool) :
    ThreadPool.setMinThreadsFuel 0 n p = p := rfl

/-- Exhausted fuel leaves the state unchanged (never reached on states
with minThreads at most maxThreads). -/
theorem setMaxThreadsFuel_zero (n : Nat) (p : ThreadPool) :
    ThreadPool.setMaxThreadsFuel 0 n p = p := rfl

/-- C7: on any well-formed pool state (defined sizes with minThreads at
most maxThreads and thread count equal to maxThreads), setting
maxThreads to a valid n below the current minThreads also lowers
minThreads to n, and setting minThreads to n above the current
maxThreads also raises maxThreads to n; and after either operation the
invariant minThreads at most maxThreads holds (Nat values are at least
0 by construction) and the thread count equals the new maxThreads. -/
theorem C7_cross_adjust_invariants (p : ThreadPool) (m M n : Nat)
    (hm : p.minT = some m) (hM : p.maxT = some M) (hmM : m ≤ M)
    (hlen : p.threads.length = M) (hn : 1 ≤ n) :
    (n < m →
      (ThreadPool.setMaxThreadsNat n p).minT = some n
      ∧ (ThreadPool.setMaxThreadsNat n p).maxT = some n
      ∧ (ThreadPool.setMaxThreadsNat n p).threads.length = n)
    ∧ (M < n →
      (ThreadPool.setMinThreadsNat n p).minT = some n
      ∧ (ThreadPool.setMinThreadsNat n p).maxT = some n
      ∧ (ThreadPool.setMinThreadsNat n p).threads.length = n)
    ∧ (∃ m2 M2, (ThreadPool.setMinThreadsNat n p).minT = some m2
        ∧ (ThreadPool.setMinThreadsNat n p).maxT = some M2
        ∧ m2 ≤ M2 ∧ (ThreadPool.setMinThreadsNat n p).threads.length = M2)
    ∧ (∃ m2 M2, (ThreadPool.setMaxThreadsNat n p).minT = some m2
        ∧ (ThreadPool.setMaxThreadsNat n p).maxT = some M2
        ∧ m2 ≤ M2 ∧ (ThreadPool.setMaxThreadsNat n p).threads.length = M2) := by
  have hsetmax_lt : n < m →
      ThreadPool.setMaxThreadsNat n p
        = { p with
            threads := (minThreadsLoops n p.idleT p.threads).take n,
            minT := some n, maxT := some n } := by
    intro hlt
    have hb1 : jsLtOpt n p.minT = true := by
      simp [jsLtOpt, hm]
      omega
    have hb2 : jsGtOpt n p.maxT = false := by
      simp [jsGtOpt, hM]
      omega
    have hb3 : jsLtOpt n p.maxT = true := by
      simp [jsLtOpt, hM]
      omega
    have hlenloops : (minThreadsLoops n p.idleT p.threads).length = M := by
      rw [minThreadsLoops_length, hlen]
      omega
    simp [setMaxThreadsNat_unfold, setMinThreadsFuel_one, hb1, hb2,
          maxThreadsResize, hb3]
  have hsetmax_ge : ¬ n < m →
      ThreadPool.setMaxThreadsNat n p
        = { p with
            threads := maxThreadsResize n p.maxT p.idleT p.threads,
            maxT := some n } := by
    intro hge
    have hb1 : jsLtOpt n p.minT = false := by
      simp [jsLtOpt, hm]
      omega
    simp [setMaxThreadsNat_unfold, hb1]
  have hsetmin_gt : M < n →
      ThreadPool.setMinThreadsNat n p
        = { p with
            threads := minThreadsLoops n p.idleT
              (p.threads ++ List.replicate (n - p.threads.length)
                (jsNullish p.idleT (JsVal.fin 0))),
            minT := some n, maxT := some n } := by
    intro hgt
    have hb1 : jsGtOpt n p.maxT = true := by
      simp [jsGtOpt, hM]
      omega
    have hb2 : jsLtOpt n p.minT = false := by
      simp [jsLtOpt, hm]
      omega
    have hb3 : jsLtOpt n p.maxT = false := by
      simp [jsLtOpt, hM]
      omega
    have hb4 : jsGtOpt n p.maxT = true := hb1
    simp [setMinThreadsNat_unfold, setMaxThreadsFuel_one, hb1, hb2,
          maxThreadsResize, hb3]
  have hsetmin_le : ¬ M < n →
      ThreadPool.setMinThreadsNat n p
        = { p with
            threads := minThreadsLoops n p.idleT p.threads,
            minT := some n } := by
    intro hle
    have hb1 : jsGtOpt n p.maxT = false := by
      simp [jsGtOpt, hM]
      omega
    simp [setMinThreadsNat_unfold, hb1]
  refine ⟨?_, ?_, ?_, ?_⟩
  · intro hlt
    rw [hsetmax_lt hlt]
    refine ⟨rfl, rfl, ?_⟩
    simp [minThreadsLoops_length, hlen]
  · intro hgt
    rw [hsetmin_gt hgt]
    refine ⟨rfl, rfl, ?_⟩
    simp [minThreadsLoops_length, hlen]
    omega
  · by_cases hgt : M < n
    · refine ⟨n, n, ?_⟩
      rw [hsetmin_gt hgt]
      refine ⟨rfl, rfl, le_refl n, ?_⟩
      simp [minThreadsLoops_length, hlen]
      omega
    · refine ⟨n, M, ?_⟩
      rw [hsetmin_le hgt]
      refine ⟨rfl, hM, by omega, ?_⟩
      simp [minThreadsLoops_length, hlen]
      omega
  · by_cases hlt : n < m
    · refine ⟨n, n, ?_⟩
      rw [hsetmax_lt hlt]
      refine ⟨rfl, rfl, le_refl n, ?_⟩
      simp [minThreadsLoops_length, hlen]
    · refine ⟨m, n, ?_⟩
      rw [hsetmax_ge hlt]
      refine ⟨hm, rfl, by omega, ?_⟩
      unfold maxThreadsResize
      by_cases h1 : jsLtOpt n p.maxT
      · simp [h1, hlen]
        simp [jsLtOpt, hM] at h1
        omega
      · by_cases h2 : jsGtOpt n p.maxT
        · simp [h1, h2, hlen]
          simp [jsGtOpt, hM] at h2
          omega
        · simp [h1, h2, hlen]
          simp [jsLtOpt, hM] at h1
          simp [jsGtOpt, hM] at h2
          omega

/-- C7 witness: a pool with minThreads 2, maxThreads 3; lowering
maxThreads to 1 drags minThreads down with it; raising minThreads to 5
drags maxThreads up; both keep thread count equal to maxThreads. -/
theorem C7_witness :
    ((ThreadPool.setMaxThreadsNat 1
        { threads := [JsVal.inf, JsVal.inf, JsVal.fin 7], minT := some 2,
          maxT := some 3, idleT := JsVal.fin 7 }).minT = some 1
     ∧ (ThreadPool.setMaxThreadsNat 1
        { threads := [JsVal.inf, JsVal.inf, JsVal.fin 7], minT := some 2,
          maxT := some 3, idleT := JsVal.fin 7 }).maxT = some 1
     ∧ (ThreadPool.setMaxThreadsNat 1
        { threads := [JsVal.inf, JsVal.inf, JsVal.fin 7], minT := some 2,
          maxT := some 3, idleT := JsVal.fin 7 }).threads.length = 1)
    ∧ ((ThreadPool.setMinThreadsNat 5
        { threads := [JsVal.inf, JsVal.inf, JsVal.fin 7], minT := some 2,
          maxT := some 3, idleT := JsVal.fin 7 }).minT = some 5
     ∧ (ThreadPool.setMinThreadsNat 5
        { threads := [JsVal.inf, JsVal.inf, JsVal.fin 7], minT := some 2,
          maxT := some 3, idleT := JsVal.fin 7 }).maxT = some 5
     ∧ (ThreadPool.setMinThreadsNat 5
        { threads := [JsVal.inf, JsVal.inf, JsVal.fin 7], minT := some 2,
          maxT := some 3, idleT := JsVal.fin 7 }).threads.length = 5) := by
  constructor
  · exact (C7_cross_adjust_invariants
      { threads := [JsVal.inf, JsVal.inf, JsVal.fin 7], minT := some 2,
        maxT := some 3, idleT := JsVal.fin 7 } 2 3 1 rfl rfl (by decide)
      (by decide) (by decide)).1 (by decide)
  · exact (C7_cross_adjust_invariants
      { threads := [JsVal.inf, JsVal.inf, JsVal.fin 7], minT := some 2,
        maxT := some 3, idleT := JsVal.fin 7 } 2 3 5 rfl rfl (by decide)
      (by decide) (by decide)).2.1 (by decide)
